import Mathlib

/-!
Verification of the bash-match option-to-shell-invocation compiler
(src/index.js): option normalization (`createOptions`), command
compilation (`cmd`), result interpretation (`handleError` and the
main `bash` entry point), and the batch wrapper (`bash.match`).

JavaScript records are modelled as insertion-ordered association lists
with unique keys, matching JS object enumeration semantics; external
collaborators (process spawn, `process.cwd()`, `is-windows`, the bash
path probe) are parameters of the embedded functions.
-/

namespace BashMatch

/-- JavaScript values as they occur in this module: strings, booleans,
numbers, and undefined. -/
inductive JsVal where
  | str (s : String)
  | bool (b : Bool)
  | num (n : Int)
  | undef
deriving DecidableEq, Repr

/-- True exactly when the value is a string (JS `typeof v === 'string'`). -/
def JsVal.isString : JsVal → Bool
  | .str _ => true
  | _ => false

/-- A JavaScript object: an insertion-ordered list of key/value pairs. -/
abbrev JsObj := List (String × JsVal)

/-- Own-property lookup (first matching key). -/
def getOwn : JsObj → String → Option JsVal
  | [], _ => none
  | (k, v) :: rest, key => if k = key then some v else getOwn rest key

/-- JS `obj.hasOwnProperty(key)`. -/
def hasOwn (o : JsObj) (k : String) : Bool :=
  (getOwn o k).isSome

/-- JS property assignment `obj[key] = v`: overwrites in place if the key
exists (keeping its enumeration position), otherwise appends. -/
def setKey : JsObj → String → JsVal → JsObj
  | [], key, v => [(key, v)]
  | (k, w) :: rest, key, v =>
    if k = key then (k, v) :: rest else (k, w) :: setKey rest key v

/-- The extend-shallow dependency: assigns every own key of `source` onto
`target`, in enumeration order (`extend(target, source)`). -/
def extendObj (target source : JsObj) : JsObj :=
  source.foldl (fun t kv => setKey t kv.1 kv.2) target

/-- JS `String.prototype.trim`: strip whitespace from both ends. -/
def jsTrim (s : String) : String :=
  ⟨((s.data.dropWhile Char.isWhitespace).reverse.dropWhile
      Char.isWhitespace).reverse⟩

/-- The pattern contains the two-character sequence of two consecutive
stars (JS `pattern.indexOf('**') !== -1`). -/
def hasGlobstar : List Char → Bool
  | c1 :: c2 :: rest => (c1 = '*' && c2 = '*') || hasGlobstar (c2 :: rest)
  | _ => false

/-- Modelled from the spec: the is-extglob dependency, whose source is not
in this repository. Per the spec, a pattern qualifies as extglob when it
contains one of the characters `?`, `*`, `+`, `@`, `!` immediately
followed by `(`. -/
def isExtglobChars : List Char → Bool
  | c1 :: c2 :: rest =>
    ((c1 = '?' || c1 = '*' || c1 = '+' || c1 = '@' || c1 = '!') && c2 = '(')
      || isExtglobChars (c2 :: rest)
  | _ => false

/-- Modelled from the spec: string wrapper for the extglob test. -/
def isExtglob (p : String) : Bool :=
  isExtglobChars p.data

/-- The body of `createOptions` past the `normalized` escape hatch
(src/index.js lines 150-161): shallow-merge over a base record holding
`cwd`, expand the three aliases, infer `globstar` and `extglob` from the
pattern when the key is absent, and mark the result normalized. The
ambient `process.cwd()` is the `cwd` parameter. -/
def createOptionsBody (cwd pattern : String) (options : JsObj) : JsObj :=
  let opts := extendObj [("cwd", JsVal.str cwd)] options
  let opts := if getOwn opts "nocase" = some (.bool true) then
    setKey opts "nocaseglob" (.bool true) else opts
  let opts := if getOwn opts "nonull" = some (.bool true) then
    setKey opts "nullglob" (.bool true) else opts
  let opts := if getOwn opts "dot" = some (.bool true) then
    setKey opts "dotglob" (.bool true) else opts
  let opts := if !hasOwn opts "globstar" && hasGlobstar pattern.data then
    setKey opts "globstar" (.bool true) else opts
  let opts := if !hasOwn opts "extglob" && isExtglob pattern then
    setKey opts "extglob" (.bool true) else opts
  setKey opts "normalized" (.bool true)

/-- src/index.js `createOptions(pattern, options)`: return `options`
unchanged when it is truthy with `normalized === true`, otherwise run the
normalization body. A `none` argument is JS `undefined`. -/
def createOptions (cwd pattern : String) (options : Option JsObj) : JsObj :=
  match options with
  | some o =>
    if getOwn o "normalized" = some (.bool true) then o
    else createOptionsBody cwd pattern o
  | none => createOptionsBody cwd pattern []

/-- src/index.js `cmd`: the list of valid shell option names. -/
def validToggles : List String :=
  ["dotglob", "extglob", "failglob", "globstar", "nocaseglob", "nullglob"]

/-- The shell script text built on src/index.js line 121, with `str` and
`pattern` interpolated verbatim. -/
def script (str pattern : String) : String :=
  "IFS=$\"\n\"; if [[ \"" ++ str ++ "\" = " ++ pattern
    ++ " ]]; then echo true; fi"

/-- src/index.js `cmd(str, pattern, options)`: for each own key of
`options` (in enumeration order) that is one of the valid toggles, push
the pair `-O key`; then push `-c` and the script. -/
def cmd (str pattern : String) (options : JsObj) : List String :=
  (options.foldl
    (fun args kv =>
      if validToggles.contains kv.1 then args ++ ["-O", kv.1] else args)
    [])
  ++ ["-c", script str pattern]

/-- src/index.js `toString(buf)`: decode a possibly-null buffer and trim;
a null/undefined buffer yields the empty string. -/
def bufToString (buf : Option String) : String :=
  jsTrim (buf.getD "")

/-- Errors raised by the module: type errors and plain errors thrown by
`bash` itself, the stderr text thrown by `handleError`, and spawn-level
failures from the executor. -/
inductive JsErr where
  | typeError (msg : String)
  | error (msg : String)
  | stderrText (msg : String)
  | spawnErr (msg : String)
deriving DecidableEq, Repr

/-- src/index.js `handleError(err, options)`: rethrow when
`options.strictErrors === true`, otherwise return false. -/
def handleError (err : JsErr) (options : JsObj) : Except JsErr Bool :=
  if getOwn options "strictErrors" = some (.bool true) then .error err
  else .ok false

/-- Captured output of a completed shell subprocess. -/
structure SpawnResult where
  stdout : Option String
  stderr : Option String
deriving DecidableEq, Repr

/-- Outcome of `spawn.sync`: captured output, or a thrown spawn failure. -/
inductive SpawnOutcome where
  | ok (res : SpawnResult)
  | fail (err : JsErr)
deriving DecidableEq, Repr

/-- The external Shell Executor: consumes the bash path, the argument
list, and the options record (for `cwd`), produces a spawn outcome. -/
abbrev Executor := String → List String → JsObj → SpawnOutcome

/-- src/index.js `bash(str, pattern, options)`: validate that both
arguments are strings, fail on Windows, normalize options, compile and
run the command, then interpret stderr/stdout under the strictErrors
policy. The platform flag `win`, ambient `cwd`, resolved `bashPath` and
the executor are explicit parameters. -/
def bash (win : Bool) (cwd bashPath : String) (exec : Executor)
    (str pattern : JsVal) (options : Option JsObj) : Except JsErr Bool :=
  match str with
  | .str s =>
    match pattern with
    | .str p =>
      if win then .error (.error "bash-match does not work on windows")
      else
        let opts := createOptions cwd p options
        match exec bashPath (cmd s p opts) opts with
        | .fail err => handleError err opts
        | .ok res =>
          let err := bufToString res.stderr
          if err = "" then .ok (bufToString res.stdout != "")
          else handleError (.stderrText err) opts
    | _ => .error (.typeError "expected a string")
  | _ => .error (.typeError "expected a string")

/-- src/index.js `bash.isMatch`: alias for the main export. -/
def isMatch (win : Bool) (cwd bashPath : String) (exec : Executor)
    (fixture pattern : JsVal) (options : Option JsObj) : Except JsErr Bool :=
  bash win cwd bashPath exec fixture pattern options

/-- The loop body of src/index.js `bash.match`: walk the list in order,
keeping the fixtures for which `isMatch` returns true; an exception from
any element propagates. -/
def matchList (win : Bool) (cwd bashPath : String) (exec : Executor)
    (pattern : JsVal) (options : Option JsObj) :
    List JsVal → Except JsErr (List JsVal)
  | [] => .ok []
  | fixture :: rest => do
    let b ← isMatch win cwd bashPath exec fixture pattern options
    let ms ← matchList win cwd bashPath exec pattern options rest
    pure (if b then fixture :: ms else ms)

/-- src/index.js `bash.match(list, pattern, options)`: coerce a non-array
subject to a one-element list, then filter by `isMatch`. -/
def bashMatch (win : Bool) (cwd bashPath : String) (exec : Executor)
    (list : List JsVal ⊕ JsVal) (pattern : JsVal)
    (options : Option JsObj) : Except JsErr (List JsVal) :=
  matchList win cwd bashPath exec pattern options
    (match list with | .inl l => l | .inr v => [v])

/-- A heap of JavaScript objects, for stating frame properties of the
normalizer: references are indices, allocation appends. -/
abbrev Store := List JsObj

/-- Dereference a store reference. -/
def Store.getRef (s : Store) (r : Nat) : JsObj :=
  s.getD r []

/-- Mutate one key of the object at reference `r`. -/
def Store.setKeyRef (s : Store) (r : Nat) (k : String) (v : JsVal) : Store :=
  s.set r (setKey (s.getD r []) k v)

/-- Heap-level rendering of the `createOptions` body: `extend` allocates a
fresh object seeded with `cwd` and a shallow copy of the source object,
and every subsequent property assignment of src/index.js lines 151-160
mutates only that fresh object. -/
def createOptionsHBody (cwd pattern : String) (s : Store) (source : JsObj) :
    Store × Nat :=
  let nr := s.length
  let s1 := s ++ [extendObj [("cwd", JsVal.str cwd)] source]
  let s2 := if getOwn (s1.getRef nr) "nocase" = some (.bool true) then
    s1.setKeyRef nr "nocaseglob" (.bool true) else s1
  let s3 := if getOwn (s2.getRef nr) "nonull" = some (.bool true) then
    s2.setKeyRef nr "nullglob" (.bool true) else s2
  let s4 := if getOwn (s3.getRef nr) "dot" = some (.bool true) then
    s3.setKeyRef nr "dotglob" (.bool true) else s3
  let s5 := if !hasOwn (s4.getRef nr) "globstar" && hasGlobstar pattern.data
    then s4.setKeyRef nr "globstar" (.bool true) else s4
  let s6 := if !hasOwn (s5.getRef nr) "extglob" && isExtglob pattern then
    s5.setKeyRef nr "extglob" (.bool true) else s5
  (s6.setKeyRef nr "normalized" (.bool true), nr)

/-- Heap-level `createOptions`: the options argument is a reference into
the store (or `none` for JS `undefined`); returns the updated store and
the reference of the resulting record. -/
def createOptionsH (cwd pattern : String) (s : Store) (options : Option Nat) :
    Store × Nat :=
  match options with
  | some r =>
    if getOwn (s.getRef r) "normalized" = some (.bool true) then (s, r)
    else createOptionsHBody cwd pattern s (s.getRef r)
  | none => createOptionsHBody cwd pattern s []

/-- True exactly when a call completed normally with result true; used to
state which fixtures the batch wrapper keeps. -/
def okTrue : Except JsErr Bool → Bool
  | .ok true => true
  | _ => false

/-! ### Basic lemmas about object operations -/

theorem getOwn_setKey_self (o : JsObj) (k : String) (v : JsVal) :
    getOwn (setKey o k v) k = some v := by
  induction o with
  | nil => simp [setKey, getOwn]
  | cons kv rest ih =>
    obtain ⟨k0, w⟩ := kv
    by_cases h : k0 = k
    · simp [setKey, getOwn, h]
    · simp [setKey, getOwn, h, ih]

theorem getOwn_setKey_ne {o : JsObj} {k' k : String} (h : k' ≠ k)
    {v : JsVal} : getOwn (setKey o k' v) k = getOwn o k := by
  induction o with
  | nil => simp [setKey, getOwn, h]
  | cons kv rest ih =>
    obtain ⟨k0, w⟩ := kv
    by_cases h0 : k0 = k'
    · subst h0
      simp [setKey, getOwn, h]
    · simp [setKey, getOwn, h0, ih]

theorem hasOwn_setKey (o : JsObj) (k' k : String) (v : JsVal) :
    hasOwn (setKey o k' v) k = (k' == k || hasOwn o k) := by
  by_cases h : k' = k
  · subst h
    simp [hasOwn, getOwn_setKey_self]
  · simp [hasOwn, getOwn_setKey_ne h, h]

theorem hasOwn_setKey_of (o : JsObj) (k' k : String) (v : JsVal)
    (h : hasOwn o k = true) : hasOwn (setKey o k' v) k = true := by
  simp [hasOwn_setKey, h]

theorem hasOwn_ifSetKey_of (c : Prop) [Decidable c] (o : JsObj)
    (k' k : String) (v : JsVal) (h : hasOwn o k = true) :
    hasOwn (if c then setKey o k' v else o) k = true := by
  split
  · exact hasOwn_setKey_of o k' k v h
  · exact h

theorem getOwn_ifSetKey_ne {c : Prop} [Decidable c] {o : JsObj}
    {k' k : String} (h : k' ≠ k) {v : JsVal} :
    getOwn (if c then setKey o k' v else o) k = getOwn o k := by
  split
  · exact getOwn_setKey_ne h
  · rfl

theorem hasOwn_ifSetKey_ne {c : Prop} [Decidable c] {o : JsObj}
    {k' k : String} (h : k' ≠ k) {v : JsVal} :
    hasOwn (if c then setKey o k' v else o) k = hasOwn o k := by
  simp [hasOwn, getOwn_ifSetKey_ne h]

theorem getOwn_extendObj_not_mem (t : JsObj) {s : JsObj} {k : String}
    (h : getOwn s k = none) : getOwn (extendObj t s) k = getOwn t k := by
  induction s generalizing t with
  | nil => rfl
  | cons kv rest ih =>
    obtain ⟨k0, v0⟩ := kv
    by_cases h0 : k0 = k
    · simp [getOwn, h0] at h
    · simp only [getOwn, h0, if_false] at h
      simpa [extendObj, List.foldl_cons] using
        (ih (t := setKey t k0 v0) h).trans (getOwn_setKey_ne h0)

theorem getOwn_extendObj_of_nodup (t : JsObj) {s : JsObj} {k : String}
    {v : JsVal} (hnd : (s.map Prod.fst).Nodup)
    (h : getOwn s k = some v) : getOwn (extendObj t s) k = some v := by
  induction s generalizing t with
  | nil => simp [getOwn] at h
  | cons kv rest ih =>
    obtain ⟨k0, v0⟩ := kv
    simp only [List.map_cons, List.nodup_cons] at hnd
    by_cases h0 : k0 = k
    · subst h0
      simp only [getOwn, eq_self_iff_true, ite_true, Option.some.injEq] at h
      subst h
      have hrest : getOwn rest k0 = none := by
        cases hg : getOwn rest k0 with
        | none => rfl
        | some w =>
          exfalso
          apply hnd.1
          clear ih hnd
          induction rest with
          | nil => simp [getOwn] at hg
          | cons kv2 rest2 ih2 =>
            obtain ⟨k2, v2⟩ := kv2
            by_cases h2 : k2 = k0
            · simp [h2]
            · simp only [getOwn, h2, if_false] at hg
              simp [ih2 hg]
      simpa [extendObj, List.foldl_cons] using
        (getOwn_extendObj_not_mem (setKey t k0 v0) hrest).trans
          (getOwn_setKey_self t k0 v0)
    · simp only [getOwn, h0, if_false] at h
      simpa [extendObj, List.foldl_cons] using
        ih (t := setKey t k0 v0) hnd.2 h

theorem hasOwn_extendObj (t s : JsObj) (k : String) :
    hasOwn (extendObj t s) k = (hasOwn t k || hasOwn s k) := by
  induction s generalizing t with
  | nil => simp [extendObj, hasOwn, getOwn]
  | cons kv rest ih =>
    obtain ⟨k0, v0⟩ := kv
    simp only [extendObj, List.foldl_cons] at *
    rw [ih (setKey t k0 v0), hasOwn_setKey]
    by_cases h0 : k0 = k
    · simp [h0, hasOwn, getOwn]
    · simp [h0, hasOwn, getOwn, Bool.or_assoc]

/-! ### Lemmas about the option normalizer -/

theorem getOwn_createOptionsBody_normalized (cwd pattern : String)
    (o : JsObj) :
    getOwn (createOptionsBody cwd pattern o) "normalized"
      = some (.bool true) := by
  simp only [createOptionsBody]
  exact getOwn_setKey_self _ _ _

theorem getOwn_createOptions_normalized (cwd pattern : String)
    (o : Option JsObj) :
    getOwn (createOptions cwd pattern o) "normalized" = some (.bool true) := by
  cases o with
  | none => exact getOwn_createOptionsBody_normalized cwd pattern []
  | some r =>
    by_cases h : getOwn r "normalized" = some (.bool true)
    · simp [createOptions, h]
    · simpa [createOptions, h] using
        getOwn_createOptionsBody_normalized cwd pattern r

theorem hasOwn_createOptionsBody_of (cwd pattern : String) (o : JsObj)
    (k : String)
    (h : hasOwn (extendObj [("cwd", JsVal.str cwd)] o) k = true) :
    hasOwn (createOptionsBody cwd pattern o) k = true := by
  simp only [createOptionsBody]
  apply hasOwn_setKey_of
  apply hasOwn_ifSetKey_of
  apply hasOwn_ifSetKey_of
  apply hasOwn_ifSetKey_of
  apply hasOwn_ifSetKey_of
  apply hasOwn_ifSetKey_of
  exact h

/-! ### Claim theorems about the normalizer -/

/-- C5: normalization is idempotent. For every pattern and raw options,
normalizing the result of normalization returns it unchanged, and any
record carrying `normalized = true` is returned as-is by `createOptions`. -/
theorem createOptions_idempotent (cwd pattern : String) (o : Option JsObj) :
    createOptions cwd pattern (some (createOptions cwd pattern o))
      = createOptions cwd pattern o
    ∧ ∀ r : JsObj, getOwn r "normalized" = some (.bool true) →
        createOptions cwd pattern (some r) = r := by
  constructor
  · show (if getOwn (createOptions cwd pattern o) "normalized"
          = some (.bool true) then createOptions cwd pattern o
        else createOptionsBody cwd pattern (createOptions cwd pattern o))
      = createOptions cwd pattern o
    rw [if_pos (getOwn_createOptions_normalized cwd pattern o)]
  · intro r h
    show (if getOwn r "normalized" = some (.bool true) then r
        else createOptionsBody cwd pattern r) = r
    rw [if_pos h]

/-- Witness for the idempotence theorem at a concrete normalized record. -/
theorem createOptions_idempotent_witness :
    createOptions "/" "x" (some [("normalized", JsVal.bool true)])
      = [("normalized", JsVal.bool true)] :=
  (createOptions_idempotent "/" "x" none).2
    [("normalized", JsVal.bool true)] (by decide)

/-- Counterexample to C3: normalizing the raw record with alias key `dot`
set true and toggle `failglob` set false yields a record in which the
alias key `dot` is still present and `failglob` is present with value
false, contradicting the claim that the canonical record contains only
the six toggles (each absent or true), `cwd`, and `strictErrors`. -/
theorem createOptions_alias_keys_cex :
    getOwn (createOptions "/" "x"
        (some [("dot", JsVal.bool true), ("failglob", JsVal.bool false)]))
      "dot" = some (JsVal.bool true)
    ∧ getOwn (createOptions "/" "x"
        (some [("dot", JsVal.bool true), ("failglob", JsVal.bool false)]))
      "failglob" = some (JsVal.bool false) := by
  decide

/-- C3 amended: the record returned by normalization has
`normalized = true`; it retains every key of the raw record (alias keys
`dot`, `nocase`, `nonull` and false-valued toggles included), and, when
the input was not already marked normalized, additionally contains
`cwd`. -/
theorem createOptions_canonical_shape (cwd pattern : String) (o : JsObj) :
    getOwn (createOptions cwd pattern (some o)) "normalized"
      = some (.bool true)
    ∧ (∀ k, hasOwn o k = true →
        hasOwn (createOptions cwd pattern (some o)) k = true)
    ∧ (getOwn o "normalized" ≠ some (.bool true) →
        hasOwn (createOptions cwd pattern (some o)) "cwd" = true) := by
  refine ⟨getOwn_createOptions_normalized cwd pattern (some o), ?_, ?_⟩
  · intro k hk
    by_cases h : getOwn o "normalized" = some (.bool true)
    · simpa [createOptions, h] using hk
    · simp only [createOptions]
      rw [if_neg h]
      apply hasOwn_createOptionsBody_of
      rw [hasOwn_extendObj]
      simp [hk]
  · intro h
    simp only [createOptions]
    rw [if_neg h]
    apply hasOwn_createOptionsBody_of
    rw [hasOwn_extendObj]
    simp [hasOwn, getOwn]

/-- Witness for the amended C3 theorem at a concrete raw record. -/
theorem createOptions_canonical_shape_witness :
    hasOwn (createOptions "/" "x" (some [("nocase", JsVal.bool true)]))
      "nocase" = true
    ∧ hasOwn (createOptions "/" "x" (some [("nocase", JsVal.bool true)]))
      "cwd" = true :=
  ⟨(createOptions_canonical_shape "/" "x" [("nocase", JsVal.bool true)]).2.1
      "nocase" (by decide),
   (createOptions_canonical_shape "/" "x" [("nocase", JsVal.bool true)]).2.2
      (by decide)⟩

theorem hasOwn_singleton_ne {k' k : String} (h : k' ≠ k) (v : JsVal) :
    hasOwn [(k', v)] k = false := by
  simp [hasOwn, getOwn, h]

theorem getOwn_body_globstar_explicit (cwd pattern : String) {o : JsObj}
    (hnd : (o.map Prod.fst).Nodup)
    (h : getOwn o "globstar" = some (.bool true)) :
    getOwn (createOptionsBody cwd pattern o) "globstar"
      = some (.bool true) := by
  simp only [createOptionsBody]
  set o1 := extendObj [("cwd", JsVal.str cwd)] o with ho1
  set o2 := (if getOwn o1 "nocase" = some (JsVal.bool true) then
    setKey o1 "nocaseglob" (JsVal.bool true) else o1) with ho2
  set o3 := (if getOwn o2 "nonull" = some (JsVal.bool true) then
    setKey o2 "nullglob" (JsVal.bool true) else o2) with ho3
  set o4 := (if getOwn o3 "dot" = some (JsVal.bool true) then
    setKey o3 "dotglob" (JsVal.bool true) else o3) with ho4
  set o5 := (if (!hasOwn o4 "globstar" && hasGlobstar pattern.data) = true
    then setKey o4 "globstar" (JsVal.bool true) else o4) with ho5
  rw [getOwn_setKey_ne (by decide : "normalized" ≠ "globstar")]
  rw [getOwn_ifSetKey_ne (by decide : "extglob" ≠ "globstar")]
  have h4 : getOwn o4 "globstar" = some (.bool true) := by
    rw [ho4, getOwn_ifSetKey_ne (by decide : "dotglob" ≠ "globstar"),
      ho3, getOwn_ifSetKey_ne (by decide : "nullglob" ≠ "globstar"),
      ho2, getOwn_ifSetKey_ne (by decide : "nocaseglob" ≠ "globstar"),
      ho1]
    exact getOwn_extendObj_of_nodup _ hnd h
  rw [ho5]
  by_cases hc : (!hasOwn o4 "globstar" && hasGlobstar pattern.data) = true
  · rw [if_pos hc]
    exact getOwn_setKey_self _ _ _
  · rw [if_neg hc]
    exact h4

theorem getOwn_body_globstar_inferred (cwd pattern : String) {o : JsObj}
    (h : hasOwn o "globstar" = false)
    (hg : hasGlobstar pattern.data = true) :
    getOwn (createOptionsBody cwd pattern o) "globstar"
      = some (.bool true) := by
  simp only [createOptionsBody]
  set o1 := extendObj [("cwd", JsVal.str cwd)] o with ho1
  set o2 := (if getOwn o1 "nocase" = some (JsVal.bool true) then
    setKey o1 "nocaseglob" (JsVal.bool true) else o1) with ho2
  set o3 := (if getOwn o2 "nonull" = some (JsVal.bool true) then
    setKey o2 "nullglob" (JsVal.bool true) else o2) with ho3
  set o4 := (if getOwn o3 "dot" = some (JsVal.bool true) then
    setKey o3 "dotglob" (JsVal.bool true) else o3) with ho4
  have h4 : hasOwn o4 "globstar" = false := by
    rw [ho4, hasOwn_ifSetKey_ne (by decide : "dotglob" ≠ "globstar"),
      ho3, hasOwn_ifSetKey_ne (by decide : "nullglob" ≠ "globstar"),
      ho2, hasOwn_ifSetKey_ne (by decide : "nocaseglob" ≠ "globstar"),
      ho1, hasOwn_extendObj, h,
      hasOwn_singleton_ne (by decide : "cwd" ≠ "globstar")]
    rfl
  rw [getOwn_setKey_ne (by decide : "normalized" ≠ "globstar")]
  rw [getOwn_ifSetKey_ne (by decide : "extglob" ≠ "globstar")]
  rw [if_pos (by rw [h4, hg]; rfl)]
  exact getOwn_setKey_self _ _ _

theorem getOwn_body_extglob_explicit (cwd pattern : String) {o : JsObj}
    (hnd : (o.map Prod.fst).Nodup)
    (h : getOwn o "extglob" = some (.bool true)) :
    getOwn (createOptionsBody cwd pattern o) "extglob"
      = some (.bool true) := by
  simp only [createOptionsBody]
  set o1 := extendObj [("cwd", JsVal.str cwd)] o with ho1
  set o2 := (if getOwn o1 "nocase" = some (JsVal.bool true) then
    setKey o1 "nocaseglob" (JsVal.bool true) else o1) with ho2
  set o3 := (if getOwn o2 "nonull" = some (JsVal.bool true) then
    setKey o2 "nullglob" (JsVal.bool true) else o2) with ho3
  set o4 := (if getOwn o3 "dot" = some (JsVal.bool true) then
    setKey o3 "dotglob" (JsVal.bool true) else o3) with ho4
  set o5 := (if (!hasOwn o4 "globstar" && hasGlobstar pattern.data) = true
    then setKey o4 "globstar" (JsVal.bool true) else o4) with ho5
  rw [getOwn_setKey_ne (by decide : "normalized" ≠ "extglob")]
  have h5 : getOwn o5 "extglob" = some (.bool true) := by
    rw [ho5, getOwn_ifSetKey_ne (by decide : "globstar" ≠ "extglob"),
      ho4, getOwn_ifSetKey_ne (by decide : "dotglob" ≠ "extglob"),
      ho3, getOwn_ifSetKey_ne (by decide : "nullglob" ≠ "extglob"),
      ho2, getOwn_ifSetKey_ne (by decide : "nocaseglob" ≠ "extglob"),
      ho1]
    exact getOwn_extendObj_of_nodup _ hnd h
  by_cases hc : (!hasOwn o5 "extglob" && isExtglob pattern) = true
  · rw [if_pos hc]
    exact getOwn_setKey_self _ _ _
  · rw [if_neg hc]
    exact h5

theorem getOwn_body_extglob_inferred (cwd pattern : String) {o : JsObj}
    (h : hasOwn o "extglob" = false) (hx : isExtglob pattern = true) :
    getOwn (createOptionsBody cwd pattern o) "extglob"
      = some (.bool true) := by
  simp only [createOptionsBody]
  set o1 := extendObj [("cwd", JsVal.str cwd)] o with ho1
  set o2 := (if getOwn o1 "nocase" = some (JsVal.bool true) then
    setKey o1 "nocaseglob" (JsVal.bool true) else o1) with ho2
  set o3 := (if getOwn o2 "nonull" = some (JsVal.bool true) then
    setKey o2 "nullglob" (JsVal.bool true) else o2) with ho3
  set o4 := (if getOwn o3 "dot" = some (JsVal.bool true) then
    setKey o3 "dotglob" (JsVal.bool true) else o3) with ho4
  set o5 := (if (!hasOwn o4 "globstar" && hasGlobstar pattern.data) = true
    then setKey o4 "globstar" (JsVal.bool true) else o4) with ho5
  have h5 : hasOwn o5 "extglob" = false := by
    rw [ho5, hasOwn_ifSetKey_ne (by decide : "globstar" ≠ "extglob"),
      ho4, hasOwn_ifSetKey_ne (by decide : "dotglob" ≠ "extglob"),
      ho3, hasOwn_ifSetKey_ne (by decide : "nullglob" ≠ "extglob"),
      ho2, hasOwn_ifSetKey_ne (by decide : "nocaseglob" ≠ "extglob"),
      ho1, hasOwn_extendObj, h,
      hasOwn_singleton_ne (by decide : "cwd" ≠ "extglob")]
    rfl
  rw [getOwn_setKey_ne (by decide : "normalized" ≠ "extglob")]
  rw [if_pos (by rw [h5, hx]; rfl)]
  exact getOwn_setKey_self _ _ _

/-- Counterexample to C4: the pattern contains the two-star sequence, but
the raw record explicitly sets `globstar` to false; since the inference
on src/index.js line 154 only fires when the key is absent, the canonical
record carries `globstar = false`, not `true` as the claim requires. -/
theorem createOptions_globstar_inference_cex :
    getOwn (createOptions "/" "a**b" (some [("globstar", JsVal.bool false)]))
      "globstar" = some (JsVal.bool false)
    ∧ ¬ getOwn (createOptions "/" "a**b"
        (some [("globstar", JsVal.bool false)]))
      "globstar" = some (JsVal.bool true) := by
  decide

/-- C4 amended: in the canonical record produced from a raw record with
distinct keys, `globstar` is present and true if it was explicitly set
true, or if the record is not already marked normalized, the key is
absent, and the pattern contains the two-star sequence; `extglob`
behaves the same with the extglob-qualifying prefix test. An explicitly
set toggle value is preserved, so an explicit `false` suppresses the
inference. -/
theorem createOptions_toggle_inference (cwd pattern : String) (o : JsObj)
    (hnd : (o.map Prod.fst).Nodup) :
    (getOwn o "globstar" = some (.bool true) →
      getOwn (createOptions cwd pattern (some o)) "globstar"
        = some (.bool true))
    ∧ (getOwn o "normalized" ≠ some (.bool true) →
        hasOwn o "globstar" = false → hasGlobstar pattern.data = true →
        getOwn (createOptions cwd pattern (some o)) "globstar"
          = some (.bool true))
    ∧ (getOwn o "extglob" = some (.bool true) →
        getOwn (createOptions cwd pattern (some o)) "extglob"
          = some (.bool true))
    ∧ (getOwn o "normalized" ≠ some (.bool true) →
        hasOwn o "extglob" = false → isExtglob pattern = true →
        getOwn (createOptions cwd pattern (some o)) "extglob"
          = some (.bool true)) := by
  refine ⟨?_, ?_, ?_, ?_⟩
  · intro h
    show getOwn (if getOwn o "normalized" = some (JsVal.bool true) then o
        else createOptionsBody cwd pattern o) "globstar" = some (.bool true)
    by_cases hn : getOwn o "normalized" = some (JsVal.bool true)
    · rw [if_pos hn]
      exact h
    · rw [if_neg hn]
      exact getOwn_body_globstar_explicit cwd pattern hnd h
  · intro hn h hg
    show getOwn (if getOwn o "normalized" = some (JsVal.bool true) then o
        else createOptionsBody cwd pattern o) "globstar" = some (.bool true)
    rw [if_neg hn]
    exact getOwn_body_globstar_inferred cwd pattern h hg
  · intro h
    show getOwn (if getOwn o "normalized" = some (JsVal.bool true) then o
        else createOptionsBody cwd pattern o) "extglob" = some (.bool true)
    by_cases hn : getOwn o "normalized" = some (JsVal.bool true)
    · rw [if_pos hn]
      exact h
    · rw [if_neg hn]
      exact getOwn_body_extglob_explicit cwd pattern hnd h
  · intro hn h hx
    show getOwn (if getOwn o "normalized" = some (JsVal.bool true) then o
        else createOptionsBody cwd pattern o) "extglob" = some (.bool true)
    rw [if_neg hn]
    exact getOwn_body_extglob_inferred cwd pattern h hx

/-- Witness for the amended C4 theorem: globstar inference fires on a
concrete raw record without the key, and an explicit extglob request is
preserved. -/
theorem createOptions_toggle_inference_witness :
    getOwn (createOptions "/" "a**b" (some [("dot", JsVal.bool true)]))
      "globstar" = some (JsVal.bool true)
    ∧ getOwn (createOptions "/" "x" (some [("extglob", JsVal.bool true)]))
      "extglob" = some (JsVal.bool true) :=
  ⟨(createOptions_toggle_inference "/" "a**b" [("dot", JsVal.bool true)]
      (by decide)).2.1 (by decide) (by decide) (by decide),
   (createOptions_toggle_inference "/" "x" [("extglob", JsVal.bool true)]
      (by decide)).2.2.1 (by decide)⟩

/-! ### Claim theorems about the command compiler -/

theorem cmd_foldl_eq (l : JsObj) (acc : List String) :
    l.foldl
      (fun args kv =>
        if validToggles.contains kv.1 then args ++ ["-O", kv.1] else args)
      acc
    = acc ++ ((l.map Prod.fst).filter
        (fun k => validToggles.contains k)).flatMap (fun k => ["-O", k]) := by
  induction l generalizing acc with
  | nil => simp
  | cons kv rest ih =>
    obtain ⟨k0, v0⟩ := kv
    simp only [List.foldl_cons, List.map_cons, List.filter_cons]
    by_cases h : validToggles.contains k0 = true
    · rw [if_pos h, if_pos h, ih, List.flatMap_cons, List.append_assoc]
    · rw [if_neg h, if_neg h, ih]

/-- Counterexample to C2: a canonical record whose keys were inserted in
the order `nullglob`, `dotglob`, `failglob` (with `failglob` false)
compiles to toggle pairs in that insertion order, including the pair for
the false-valued `failglob`; the claim predicts only the pairs for
truthy keys, ordered `dotglob` before `nullglob`. -/
theorem cmd_toggle_args_cex :
    cmd "s" "x" (createOptions "/" "x" (some [("nullglob", JsVal.bool true),
        ("dotglob", JsVal.bool true), ("failglob", JsVal.bool false)]))
      = ["-O", "nullglob", "-O", "dotglob", "-O", "failglob", "-c",
          script "s" "x"]
    ∧ cmd "s" "x" (createOptions "/" "x" (some [("nullglob", JsVal.bool true),
        ("dotglob", JsVal.bool true), ("failglob", JsVal.bool false)]))
      ≠ ["-O", "dotglob", "-O", "nullglob", "-c", script "s" "x"] := by
  decide

/-- C2 amended: the compiled argument list consists of the pair `-O k`
for each key `k` of the options record that is one of the six toggle
names, regardless of the key's value, in the record's own key
enumeration (insertion) order, followed by the `-c` script pair. -/
theorem cmd_toggle_args (s p : String) (opts : JsObj) :
    cmd s p opts
      = ((opts.map Prod.fst).filter
          (fun k => validToggles.contains k)).flatMap (fun k => ["-O", k])
        ++ ["-c", script s p] := by
  rw [cmd, cmd_foldl_eq]
  simp

/-- C7: the compiled argument list ends with exactly the pair `-c`
followed by the script with subject and pattern interpolated verbatim. -/
theorem cmd_script_tail (s p : String) (opts : JsObj) :
    (cmd s p opts).drop ((cmd s p opts).length - 2)
      = ["-c", "IFS=$\"\n\"; if [[ \"" ++ s ++ "\" = " ++ p
          ++ " ]]; then echo true; fi"] := by
  rw [cmd]
  rw [List.length_append]
  rw [show (["-c", script s p] : List String).length = 2 from rfl]
  rw [Nat.add_sub_cancel]
  rw [List.drop_left]
  rfl

/-! ### Claim theorems about the entry point and result interpreter -/

/-- C1: when the subprocess completes, a non-empty trimmed stderr is
escalated by policy — the error is raised if the canonical options carry
`strictErrors = true` and the call returns false otherwise; with empty
stderr the call returns true exactly when the trimmed stdout is
non-empty, and false when it is empty. -/
theorem bash_result_interpretation (cwd bashPath s p : String)
    (res : SpawnResult) (options : Option JsObj) :
    (bufToString res.stderr ≠ "" →
      bash false cwd bashPath (fun _ _ _ => .ok res)
          (.str s) (.str p) options
        = (if getOwn (createOptions cwd p options) "strictErrors"
              = some (.bool true)
          then .error (.stderrText (bufToString res.stderr))
          else .ok false))
    ∧ (bufToString res.stderr = "" → bufToString res.stdout ≠ "" →
      bash false cwd bashPath (fun _ _ _ => .ok res)
          (.str s) (.str p) options = .ok true)
    ∧ (bufToString res.stderr = "" → bufToString res.stdout = "" →
      bash false cwd bashPath (fun _ _ _ => .ok res)
          (.str s) (.str p) options = .ok false) := by
  refine ⟨?_, ?_, ?_⟩
  · intro h
    simp [bash, handleError, h]
  · intro h h2
    simp [bash, h, h2]
  · intro h h2
    simp [bash, h, h2]

/-- Witness for the interpretation theorem: concrete runs covering the
error branch (stderr set, lenient policy) and both stdout branches. -/
theorem bash_result_interpretation_witness :
    bash false "/" "bash"
        (fun _ _ _ => .ok ⟨some "true", some "oops"⟩)
        (.str "a") (.str "b") none
      = (if getOwn (createOptions "/" "b" none) "strictErrors"
            = some (.bool true)
        then .error (.stderrText (bufToString (some "oops")))
        else .ok false)
    ∧ bash false "/" "bash" (fun _ _ _ => .ok ⟨some "true", none⟩)
        (.str "a") (.str "b") none = .ok true
    ∧ bash false "/" "bash" (fun _ _ _ => .ok ⟨none, none⟩)
        (.str "a") (.str "b") none = .ok false :=
  ⟨(bash_result_interpretation "/" "bash" "a" "b"
      ⟨some "true", some "oops"⟩ none).1 (by decide),
   (bash_result_interpretation "/" "bash" "a" "b"
      ⟨some "true", none⟩ none).2.1 (by decide) (by decide),
   (bash_result_interpretation "/" "bash" "a" "b"
      ⟨none, none⟩ none).2.2 (by decide) (by decide)⟩

/-- C6: a non-string subject or pattern raises a type error immediately,
for every executor, platform flag and options record (hence before any
shell invocation and independently of strictErrors); with string
arguments, running on Windows raises unconditionally in the same way. -/
theorem bash_validation (win : Bool) (cwd bashPath : String)
    (ex : Executor) (str pattern : JsVal) (options : Option JsObj) :
    (str.isString = false →
      bash win cwd bashPath ex str pattern options
        = .error (.typeError "expected a string"))
    ∧ (pattern.isString = false →
      bash win cwd bashPath ex str pattern options
        = .error (.typeError "expected a string"))
    ∧ (str.isString = true → pattern.isString = true → win = true →
      bash win cwd bashPath ex str pattern options
        = .error (.error "bash-match does not work on windows")) := by
  refine ⟨?_, ?_, ?_⟩
  · intro h
    cases str <;> first | rfl | (simp [JsVal.isString] at h)
  · intro h
    cases pattern <;> cases str <;>
      first | rfl | (simp [JsVal.isString] at h)
  · intro h1 h2 h3
    subst h3
    cases str with
    | str s =>
      cases pattern with
      | str p => rfl
      | bool b => simp [JsVal.isString] at h2
      | num n => simp [JsVal.isString] at h2
      | undef => simp [JsVal.isString] at h2
    | bool b => simp [JsVal.isString] at h1
    | num n => simp [JsVal.isString] at h1
    | undef => simp [JsVal.isString] at h1

/-- Witness for the validation theorem: a numeric subject raises the type
error even under a lenient record, and string arguments on Windows raise
the platform error. -/
theorem bash_validation_witness :
    bash false "/" "bash" (fun _ _ _ => .ok ⟨none, none⟩)
        (.num 123) (.str "f*") none
      = .error (.typeError "expected a string")
    ∧ bash true "/" "bash" (fun _ _ _ => .ok ⟨none, none⟩)
        (.str "a") (.str "b") none
      = .error (.error "bash-match does not work on windows") :=
  ⟨(bash_validation false "/" "bash" (fun _ _ _ => .ok ⟨none, none⟩)
      (.num 123) (.str "f*") none).1 rfl,
   (bash_validation true "/" "bash" (fun _ _ _ => .ok ⟨none, none⟩)
      (.str "a") (.str "b") none).2.2 rfl rfl rfl⟩

/-- C10: the two public entry points are extensionally equal — `isMatch`
returns or raises exactly what the primary `bash` call does on the same
arguments. -/
theorem isMatch_eq_bash (win : Bool) (cwd bashPath : String)
    (ex : Executor) (fixture pattern : JsVal) (options : Option JsObj) :
    isMatch win cwd bashPath ex fixture pattern options
      = bash win cwd bashPath ex fixture pattern options := rfl

/-- C8: the batch wrapper treats a non-array subject as a one-element
list, and whenever every element's single-item match completes normally,
it returns exactly the elements for which that match returned true, in
input order and with no deduplication. -/
theorem bashMatch_filter (win : Bool) (cwd bashPath : String)
    (ex : Executor) (l : List JsVal) (p : JsVal) (o : Option JsObj)
    (v : JsVal) :
    bashMatch win cwd bashPath ex (.inr v) p o
      = bashMatch win cwd bashPath ex (.inl [v]) p o
    ∧ ((∀ x ∈ l, ∃ b, isMatch win cwd bashPath ex x p o = .ok b) →
        bashMatch win cwd bashPath ex (.inl l) p o
          = .ok (l.filter
              (fun x => okTrue (isMatch win cwd bashPath ex x p o)))) := by
  constructor
  · rfl
  · induction l with
    | nil =>
      intro _
      rfl
    | cons x xs ih =>
      intro h
      obtain ⟨b, hb⟩ := h x (by simp)
      have hrest := ih (fun y hy => h y (by simp [hy]))
      simp only [bashMatch] at hrest ⊢
      simp only [matchList, hb, hrest, List.filter_cons]
      cases b <;> simp [okTrue, hb, Bind.bind, Except.bind, pure,
        Except.pure]

/-- Witness for the batch theorem: with an executor that reports a match
for every invocation, a concrete one-element list is returned whole. -/
theorem bashMatch_filter_witness :
    bashMatch false "/" "bash"
        (fun _ _ _ => .ok ⟨some "true", none⟩)
        (.inl [JsVal.str "a"]) (.str "p") none
      = .ok [JsVal.str "a"] := by
  rw [(bashMatch_filter false "/" "bash"
      (fun _ _ _ => .ok ⟨some "true", none⟩)
      [JsVal.str "a"] (.str "p") none (JsVal.str "a")).2 ?_]
  · rfl
  · intro x hx
    simp only [List.mem_singleton] at hx
    subst hx
    exact ⟨true, rfl⟩

/-! ### Frame property of the normalizer over the object heap -/

theorem Store.getRef_append {s : Store} {q : Nat} (h : q < s.length)
    (o : JsObj) : Store.getRef (s ++ [o]) q = Store.getRef s q := by
  unfold Store.getRef List.getD
  rw [List.get?_eq_getElem?, List.get?_eq_getElem?,
    List.getElem?_append_left h]

theorem Store.getRef_setKeyRef_ne {s : Store} {r q : Nat} (h : r ≠ q)
    (k : String) (v : JsVal) :
    Store.getRef (Store.setKeyRef s r k v) q = Store.getRef s q := by
  unfold Store.getRef Store.setKeyRef List.getD
  simp only [List.get?_eq_getElem?]
  rw [List.getElem?_set_ne h]

theorem Store.getRef_ite_setKeyRef_ne (c : Prop) [Decidable c] {s : Store}
    {r q : Nat} (h : r ≠ q) (k : String) (v : JsVal) :
    Store.getRef (if c then Store.setKeyRef s r k v else s) q
      = Store.getRef s q := by
  split
  · exact Store.getRef_setKeyRef_ne h k v
  · rfl

/-- C9: when the raw options object is not already marked normalized, the
heap-level normalizer allocates and returns a fresh object (the next
free reference), and every previously allocated object — in particular
the caller's record — is unchanged: no key of it is added, removed, or
overwritten. -/
theorem createOptionsH_frame (cwd pattern : String) (s : Store) (r : Nat)
    (_hr : r < s.length)
    (hn : getOwn (Store.getRef s r) "normalized" ≠ some (.bool true)) :
    (createOptionsH cwd pattern s (some r)).2 = s.length
    ∧ ∀ q, q < s.length →
        Store.getRef (createOptionsH cwd pattern s (some r)).1 q
          = Store.getRef s q := by
  constructor
  · show (if getOwn (Store.getRef s r) "normalized"
          = some (JsVal.bool true) then (s, r)
        else createOptionsHBody cwd pattern s (Store.getRef s r)).2
      = s.length
    rw [if_neg hn]
    rfl
  · intro q hq
    show Store.getRef
        (if getOwn (Store.getRef s r) "normalized"
            = some (JsVal.bool true) then (s, r)
          else createOptionsHBody cwd pattern s (Store.getRef s r)).1 q
      = Store.getRef s q
    rw [if_neg hn]
    simp only [createOptionsHBody]
    have hne : s.length ≠ q := by omega
    rw [Store.getRef_setKeyRef_ne hne,
      Store.getRef_ite_setKeyRef_ne _ hne,
      Store.getRef_ite_setKeyRef_ne _ hne,
      Store.getRef_ite_setKeyRef_ne _ hne,
      Store.getRef_ite_setKeyRef_ne _ hne,
      Store.getRef_ite_setKeyRef_ne _ hne,
      Store.getRef_append hq]

/-- Witness for the frame theorem: normalizing a concrete one-object
store allocates reference 1 and leaves the object at reference 0 as it
was. -/
theorem createOptionsH_frame_witness :
    (createOptionsH "/" "x" [[("dot", JsVal.bool true)]] (some 0)).2 = 1
    ∧ Store.getRef (createOptionsH "/" "x" [[("dot", JsVal.bool true)]]
        (some 0)).1 0 = Store.getRef [[("dot", JsVal.bool true)]] 0 :=
  ⟨(createOptionsH_frame "/" "x" [[("dot", JsVal.bool true)]] 0 (by decide)
      (by decide)).1,
   (createOptionsH_frame "/" "x" [[("dot", JsVal.bool true)]] 0 (by decide)
      (by decide)).2 0 (by decide)⟩

end BashMatch
